import Mathlib

/-!
Verification development for a small interactive filesystem shell
(`src/shell.py`): a dispatcher (`execute_command`) over six handlers
(`ls`, `cd`, `cat`, `cp`, `mv`, `rm`) that operate on the real filesystem
relative to a mutable current working directory (`pwd`).

The embedding models the filesystem as a finite map from absolute,
canonical paths (lists of name components, root = `[]`) to entries
(regular files with content and stat metadata, or directories with stat
metadata).  Symbolic links are not modeled, so `Path.resolve()` becomes
purely lexical normalization of `.` and `..` components.  Python
exceptions become `Except` values carrying the error class (kind) and
the message `str(e)`; `print` output is collected as a `String`; the
logger is modeled as the list of strings passed to `logger.info`.
-/

/-- Error classes raised by the handlers, mirroring the Python exception
classes used in `shell.py` (plus the two raised from inside `shutil`). -/
inductive ErrKind where
  | notFound
  | notADirectory
  | isADirectory
  | invalidArgument
  | permissionDenied
  | sameFile
  | fileExists
deriving DecidableEq, Repr

/-- A raised exception: its class and its message (`str(e)`). -/
structure ShellError where
  kind : ErrKind
  msg : String
deriving DecidableEq, Repr

/-- Stat metadata of a filesystem entry, as consumed by `ls -l`:
the symbolic permission string (`stat.filemode(st.st_mode)`), numeric
owner and group ids, size in bytes, and the already-formatted
modification time (`strftime "%b %d %H:%M"`). -/
structure Meta where
  mode : String
  uid : Nat
  gid : Nat
  size : Nat
  mtime : String
deriving DecidableEq, Repr

/-- A filesystem entry: a regular file with its text content, or a
directory. -/
inductive Entry where
  | file (content : String) (meta : Meta)
  | dir (meta : Meta)
deriving DecidableEq, Repr

/-- Stat metadata of an entry. -/
def Entry.meta : Entry → Meta
  | Entry.file _ m => m
  | Entry.dir m => m

/-- The filesystem: a finite association of absolute canonical paths
(component lists, root = `[]`) to entries. -/
structure FS where
  entries : List (List String × Entry)
deriving DecidableEq, Repr

/-- Look up the entry at a path. -/
def FS.lookup (fs : FS) (p : List String) : Option Entry :=
  (fs.entries.find? (fun e => e.1 = p)).map (fun e => e.2)

/-- `Path.exists()`. -/
def FS.existsPath (fs : FS) (p : List String) : Bool :=
  (fs.lookup p).isSome

/-- `Path.is_dir()`. -/
def FS.isDir (fs : FS) (p : List String) : Bool :=
  match fs.lookup p with
  | some (Entry.dir _) => true
  | _ => false

/-- `Path.is_file()` (an existing non-directory). -/
def FS.isFile (fs : FS) (p : List String) : Bool :=
  match fs.lookup p with
  | some (Entry.file _ _) => true
  | _ => false

/-- `open(path).read()` for an existing regular file. -/
def FS.readFile (fs : FS) (p : List String) : String :=
  match fs.lookup p with
  | some (Entry.file c _) => c
  | _ => ""

/-- Bind a path to an entry, replacing any previous binding. -/
def FS.set (fs : FS) (p : List String) (e : Entry) : FS :=
  ⟨(p, e) :: fs.entries.filter (fun x => !(x.1 == p))⟩

/-- `os.remove(path)`: drop the binding at exactly `path`. -/
def FS.remove (fs : FS) (p : List String) : FS :=
  ⟨fs.entries.filter (fun x => !(x.1 == p))⟩

/-- `root` is a (non-strict) ancestor prefix of `p`. -/
def under (root p : List String) : Bool :=
  match root, p with
  | [], _ => true
  | _ :: _, [] => false
  | a :: as, b :: bs => a == b && under as bs

/-- `shutil.rmtree(path)`: drop `path` and everything below it. -/
def rmTree (fs : FS) (p : List String) : FS :=
  ⟨fs.entries.filter (fun e => !(under p e.1))⟩

/-- Split a path string on `/` into its non-empty components
(accumulator holds the current component reversed). -/
def splitPathAux : List Char → List Char → List String
  | cur, [] => if cur.isEmpty then [] else [String.mk cur.reverse]
  | cur, c :: rest =>
    if c = '/' then
      (if cur.isEmpty then [] else [String.mk cur.reverse]) ++ splitPathAux [] rest
    else
      splitPathAux (c :: cur) rest

/-- Components of a path string (leading/repeated slashes yield none). -/
def splitPath (s : String) : List String :=
  splitPathAux [] s.data

/-- The path string is absolute (starts with `/`). -/
def isAbs (s : String) : Bool :=
  s.data.head? == some '/'

/-- `pwd / Path(s)`: an absolute argument replaces `pwd`, a relative one
is appended to it (pathlib `/` semantics). -/
def joinPath (pwd : List String) (s : String) : List String :=
  if isAbs s then splitPath s else pwd ++ splitPath s

/-- Lexical core of `Path.resolve()` (no symlinks in the model): drop
`.` components, and let `..` remove the previous component (the parent
of the root is the root). -/
def resolveAux (acc : List String) : List String → List String
  | [] => acc
  | c :: rest =>
    if c = "." then resolveAux acc rest
    else if c = ".." then resolveAux acc.dropLast rest
    else resolveAux (acc ++ [c]) rest

/-- `Path.resolve()` on a component list. -/
def resolvePath (p : List String) : List String :=
  resolveAux [] p

/-- `str(path)` for an absolute canonical path (`[]` is `"/"`). -/
def pathToString (p : List String) : String :=
  match p with
  | [] => "/"
  | _ => p.foldl (fun acc c => acc ++ "/" ++ c) ""

/-- `" ".join(tokens)`. -/
def joinTokens : List String → String
  | [] => ""
  | [t] => t
  | t :: rest => t ++ " " ++ joinTokens rest

/-- `if len(args) > 0 and args[0] == flag`: strip one leading flag token,
returning whether it was present and the remaining arguments. -/
def stripFlag (flag : String) (args : List String) : Bool × List String :=
  match args with
  | f :: rest => if f = flag then (true, rest) else (false, args)
  | [] => (false, [])

/-- ASCII lowering of one character (`str.lower` restricted to ASCII,
which covers the `y`/`Y` confirmation check). -/
def asciiLower (c : Char) : Char :=
  if 65 ≤ c.toNat ∧ c.toNat ≤ 90 then Char.ofNat (c.toNat + 32) else c

/-- `s.lower()` (ASCII). -/
def lowerStr (s : String) : String :=
  String.mk (s.data.map asciiLower)

/-- Lexicographic order on codepoint lists (the order Python uses to
compare strings). -/
def lexLe : List Nat → List Nat → Bool
  | [], _ => true
  | _ :: _, [] => false
  | a :: as, b :: bs =>
    if a < b then true else if b < a then false else lexLe as bs

/-- Codepoint-lexicographic order on names (Python `str` comparison,
which is what `sorted(path.iterdir())` sorts sibling entries by). -/
def nameLe (a b : String) : Bool :=
  lexLe (a.data.map Char.toNat) (b.data.map Char.toNat)

/-- Insert a named entry into a name-sorted list. -/
def insertEntry (x : String × Entry) : List (String × Entry) → List (String × Entry)
  | [] => [x]
  | y :: ys => if nameLe x.1 y.1 then x :: y :: ys else y :: insertEntry x ys

/-- Sort named entries by name (`sorted(path.iterdir())`: siblings share
their parent prefix, so path order is name order). -/
def sortEntries : List (String × Entry) → List (String × Entry)
  | [] => []
  | x :: xs => insertEntry x (sortEntries xs)

/-- The immediate children of a directory, as (base name, entry) pairs,
in filesystem enumeration order (`path.iterdir()`). -/
def FS.childEntries (fs : FS) (p : List String) : List (String × Entry) :=
  fs.entries.filterMap (fun e =>
    match e.1.getLast? with
    | some n => if e.1.dropLast = p then some (n, e.2) else none
    | none => none)

/-- The base names of the immediate children of a directory. -/
def FS.childNames (fs : FS) (p : List String) : List String :=
  (fs.childEntries p).map (fun it => it.1)

/-- Process-level environment of one session: the invoking user's home
directory (`Path.home()`), the ids new files get, the current formatted
time, and the response `input()` returns for a confirmation prompt. -/
structure Env where
  home : List String
  uid : Nat
  gid : Nat
  now : String
  confirm : String
deriving DecidableEq, Repr

/-- Session state of the `Shell` object: the filesystem it acts on and
its current working directory field `pwd`. -/
structure World where
  fs : FS
  pwd : List String
deriving DecidableEq, Repr

/-- Decidable equality for `Except`, to evaluate handler results on
concrete inputs. -/
instance exceptDecEq {ε α : Type} [DecidableEq ε] [DecidableEq α] :
    DecidableEq (Except ε α) := fun x y =>
  match x, y with
  | Except.ok a, Except.ok b =>
    if h : a = b then isTrue (by rw [h])
    else isFalse (fun hc => by cases hc; exact h rfl)
  | Except.ok _, Except.error _ => isFalse (fun hc => Except.noConfusion hc)
  | Except.error _, Except.ok _ => isFalse (fun hc => Except.noConfusion hc)
  | Except.error e, Except.error f =>
    if h : e = f then isTrue (by rw [h])
    else isFalse (fun hc => by cases hc; exact h rfl)

/-- Pad a rendered field on the left to width `w` (`f"{x:>8}"`). -/
def padLeft (w : Nat) (s : String) : String :=
  String.mk (List.replicate (w - s.length) ' ') ++ s

/-- One output line of `ls -l` for an entry with base name `name`. -/
def detailLine (e : Entry) (name : String) : String :=
  e.meta.mode ++ " " ++ toString e.meta.uid ++ " " ++ toString e.meta.gid ++ " " ++
    padLeft 8 (toString e.meta.size) ++ " " ++ e.meta.mtime ++ " " ++ name

/-- One step of the `ls` argument loop: `-l` sets detailed mode, any
other token overwrites the path argument. -/
def lsStep (st : Bool × Option String) (arg : String) : Bool × Option String :=
  if arg = "-l" then (true, st.2) else (st.1, some arg)

/-- The `for arg in args` loop of `ls`. -/
def lsParse (args : List String) : Bool × Option String :=
  args.foldl lsStep (false, none)

/-- `path = self.pwd / Path(path_str) if path_str else self.pwd`,
then `path.resolve()` (`if path_str` is false for `None` and `""`). -/
def lsTarget (pwd : List String) (pathStr : Option String) : List String :=
  match pathStr with
  | some s => if s = "" then resolvePath pwd else resolvePath (joinPath pwd s)
  | none => resolvePath pwd

namespace Shell

/-- `Shell.ls`: parse the argument loop, resolve the target, fail with
`FileNotFoundError` / `NotADirectoryError`, then print one line per
child, sorted by name. -/
def ls (fs : FS) (pwd : List String) (args : List String) :
    Except ShellError (List String) :=
  let pr := lsParse args
  let target := lsTarget pwd pr.2
  if fs.existsPath target = false then
    Except.error ⟨ErrKind.notFound, "No such file or directory"⟩
  else if fs.isDir target = false then
    Except.error ⟨ErrKind.notADirectory, "Not a directory"⟩
  else
    Except.ok ((sortEntries (fs.childEntries target)).map (fun it =>
      if pr.1 then detailLine it.2 it.1 else it.1))

/-- `Shell.cd`: exactly one argument, `~` resolves to the home
directory, `..` to the parent of `pwd`, anything else relative to
`pwd`; the canonicalized target must exist and be a directory; returns
the new value of the `pwd` field. -/
def cd (env : Env) (fs : FS) (pwd : List String) (args : List String) :
    Except ShellError (List String) :=
  match args with
  | [arg] =>
    let cand := if arg = "~" then env.home
      else if arg = ".." then pwd.dropLast
      else joinPath pwd arg
    let newPath := resolvePath cand
    if fs.existsPath newPath = false then
      Except.error ⟨ErrKind.notFound, "No such file or directory"⟩
    else if fs.isDir newPath = false then
      Except.error ⟨ErrKind.notADirectory, "Not a directory"⟩
    else Except.ok newPath
  | _ => Except.error ⟨ErrKind.invalidArgument, "cd takes exactly one argument"⟩

/-- `Shell.cat`: exactly one argument; the resolved target must exist
and not be a directory; returns the file content, printed with no
added trailing newline (`print(f.read(), end="")`). -/
def cat (fs : FS) (pwd : List String) (args : List String) :
    Except ShellError String :=
  match args with
  | [a] =>
    let path := resolvePath (joinPath pwd a)
    if fs.existsPath path = false then
      Except.error ⟨ErrKind.notFound, "No such file or directory"⟩
    else if fs.isDir path then
      Except.error ⟨ErrKind.isADirectory, "Is a directory"⟩
    else Except.ok (fs.readFile path)
  | _ => Except.error ⟨ErrKind.invalidArgument, "cat takes exactly one argument"⟩

end Shell

/-- New stat metadata of an entry copied by `shutil.copytree` (which
uses `copy2`): permission mode and modification time are preserved,
ownership becomes the copying process's user and group. -/
def copyMeta (env : Env) (m : Meta) : Meta :=
  ⟨m.mode, env.uid, env.gid, m.size, m.mtime⟩

/-- Copy of an entry as made by `shutil.copytree`. -/
def copyEntry (env : Env) : Entry → Entry
  | Entry.file c m => Entry.file c (copyMeta env m)
  | Entry.dir m => Entry.dir (copyMeta env m)

/-- The landing path of `shutil.copy`/`shutil.move`: when the
destination is an existing directory the source lands at
`dst/basename(src)`, otherwise at `dst` itself. -/
def copyTarget (fs : FS) (src dst : List String) : List String :=
  if fs.isDir dst then dst ++ [src.getLastD ""] else dst

/-- `shutil.copy(src, dst)` for a regular-file `src`.  In CPython's
order: the `_samefile` check first (it compares the two paths' files
and is `False` whenever either is missing) raises `SameFileError`;
`open(src, "rb")` raises `FileNotFoundError` for a missing source;
`open(target, "wb")` raises `IsADirectoryError` when the landing path
is an existing directory, `NotADirectoryError` when its parent exists
but is not a directory, and `FileNotFoundError` when its parent is
missing (a file or gap deeper in the chain is abridged to this parent
check).  On success data and permission mode are copied, ownership and
modification time are fresh (`copy`, not `copy2`).  The OS-error
messages are abridged from CPython's (for example
`"%r and %r are the same file"`). -/
def shutilCopy (env : Env) (fs : FS) (src dst : List String) :
    Except ShellError FS :=
  let target := copyTarget fs src dst
  if fs.existsPath src && target == src then
    Except.error ⟨ErrKind.sameFile,
      pathToString src ++ " and " ++ pathToString target ++ " are the same file"⟩
  else
    match fs.lookup src with
    | some (Entry.file c m) =>
      if fs.isDir target then
        Except.error ⟨ErrKind.isADirectory, "Is a directory"⟩
      else if fs.existsPath target.dropLast && !(fs.isDir target.dropLast) then
        Except.error ⟨ErrKind.notADirectory, "Not a directory"⟩
      else if fs.isDir target.dropLast = false then
        Except.error ⟨ErrKind.notFound, "No such file or directory"⟩
      else
        Except.ok (fs.set target
          (Entry.file c ⟨m.mode, env.uid, env.gid, m.size, env.now⟩))
    | _ => Except.error ⟨ErrKind.notFound, "No such file or directory"⟩

/-- `shutil.copytree(src, dst)`: fails with `FileExistsError` if `dst`
already exists, otherwise replicates the whole tree under `src` at
`dst`, copying entries with `copy2` semantics. -/
def shutilCopytree (env : Env) (fs : FS) (src dst : List String) :
    Except ShellError FS :=
  if fs.existsPath dst then
    Except.error ⟨ErrKind.fileExists, "File exists"⟩
  else
    Except.ok ⟨fs.entries ++ (fs.entries.filter (fun e => under src e.1)).map
      (fun e => (dst ++ e.1.drop src.length, copyEntry env e.2))⟩

/-- `shutil.move(src, dst)`: if `dst` is an existing directory the
source moves into it at `dst/basename(src)`, otherwise to `dst`
itself; the whole subtree is relocated (rename, or copy+delete across
filesystems — indistinguishable in the model). -/
def shutilMove (fs : FS) (src dst : List String) : FS :=
  let target := if fs.isDir dst then dst ++ [src.getLastD ""] else dst
  ⟨fs.entries.map (fun e =>
    if under src e.1 then (target ++ e.1.drop src.length, e.2) else e)⟩

namespace Shell

/-- `Shell.cp`: optional leading `-r`, then exactly source and
destination; source must exist; a directory source requires `-r` and is
copied with `copytree`, a file source with `copy`. -/
def cp (env : Env) (fs : FS) (pwd : List String) (args : List String) :
    Except ShellError FS :=
  let pr := stripFlag "-r" args
  match pr.2 with
  | [s, d] =>
    let source := resolvePath (joinPath pwd s)
    let dest := resolvePath (joinPath pwd d)
    if fs.existsPath source = false then
      Except.error ⟨ErrKind.notFound, "No such file or directory"⟩
    else if fs.isDir source && !pr.1 then
      Except.error ⟨ErrKind.isADirectory, "omit -r for directories"⟩
    else if fs.isDir source then shutilCopytree env fs source dest
    else shutilCopy env fs source dest
  | _ => Except.error ⟨ErrKind.invalidArgument, "cp requires source and destination"⟩

/-- `Shell.mv`: exactly source and destination; source must exist; the
move is delegated to `shutil.move`. -/
def mv (fs : FS) (pwd : List String) (args : List String) :
    Except ShellError FS :=
  match args with
  | [s, d] =>
    let source := resolvePath (joinPath pwd s)
    let dest := resolvePath (joinPath pwd d)
    if fs.existsPath source = false then
      Except.error ⟨ErrKind.notFound, "No such file or directory"⟩
    else Except.ok (shutilMove fs source dest)
  | _ => Except.error ⟨ErrKind.invalidArgument, "mv requires source and destination"⟩

end Shell

/-- The confirmation prompt `rm` passes to `input()` for a recursive
directory removal. -/
def rmPrompt (path : List String) : String :=
  "Remove directory " ++ "\x27" ++ pathToString path ++ "\x27" ++ "? (y/n) "

namespace Shell

/-- `Shell.rm`: optional leading `-r`, then exactly one argument; the
canonicalized target must not be the root (`str(path) == "/"`) nor
exactly `pwd.parent.resolve()`; it must exist; a directory target
requires `-r` and interactive confirmation — only a case-insensitive
`y` deletes the tree, any other response returns normally with the
filesystem untouched; a file target is removed unconditionally.
Returns the new filesystem and the text written to standard output
(the `input()` prompt). -/
def rm (env : Env) (fs : FS) (pwd : List String) (args : List String) :
    Except ShellError (FS × String) :=
  let pr := stripFlag "-r" args
  match pr.2 with
  | [a] =>
    let path := resolvePath (joinPath pwd a)
    if pathToString path = "/" then
      Except.error ⟨ErrKind.permissionDenied, "cannot remove root directory"⟩
    else if path = resolvePath pwd.dropLast then
      Except.error ⟨ErrKind.permissionDenied, "cannot remove parent directory"⟩
    else if fs.existsPath path = false then
      Except.error ⟨ErrKind.notFound, "No such file or directory"⟩
    else if fs.isDir path && !pr.1 then
      Except.error ⟨ErrKind.isADirectory, "omit -r for directories"⟩
    else if fs.isDir path then
      if lowerStr env.confirm = "y" then Except.ok (rmTree fs path, rmPrompt path)
      else Except.ok (fs, rmPrompt path)
    else Except.ok (fs.remove path, "")
  | _ => Except.error ⟨ErrKind.invalidArgument, "rm takes exactly one argument"⟩

end Shell

/-- Keys of the `self.commands` dict built in `Shell.__init__`. -/
def commandNames : List String := ["ls", "cd", "cat", "cp", "mv", "rm"]

/-- Concatenate printed lines, each followed by the newline `print`
appends. -/
def linesOut (lines : List String) : String :=
  String.join (lines.map (fun l => l ++ "\n"))

/-- Dispatch `self.commands[cmd](*args)`: `none` when `cmd` is not a
registered command, otherwise the handler's outcome as the updated
session state plus its standard-output text. -/
def runHandler (env : Env) (w : World) (cmd : String) (args : List String) :
    Option (Except ShellError (World × String)) :=
  if cmd = "ls" then
    some ((Shell.ls w.fs w.pwd args).map (fun lines => (w, linesOut lines)))
  else if cmd = "cd" then
    some ((Shell.cd env w.fs w.pwd args).map (fun p => ({ w with pwd := p }, "")))
  else if cmd = "cat" then
    some ((Shell.cat w.fs w.pwd args).map (fun c => (w, c)))
  else if cmd = "cp" then
    some ((Shell.cp env w.fs w.pwd args).map (fun fs2 => ({ w with fs := fs2 }, "")))
  else if cmd = "mv" then
    some ((Shell.mv w.fs w.pwd args).map (fun fs2 => ({ w with fs := fs2 }, "")))
  else if cmd = "rm" then
    some ((Shell.rm env w.fs w.pwd args).map (fun pr => ({ w with fs := pr.1 }, pr.2)))
  else none

/-- `Shell.execute_command(tokens)`: an empty token list is a no-op;
otherwise the space-joined line is logged first, then a registered
handler runs — its failure is caught, printed and logged as
`"ERROR: <message>"` — and an unregistered first token prints and logs
`"Unknown command"`.  Returns the session state after the call, the
text printed to standard output, and the log entries of this call in
order. -/
def execute_command (env : Env) (w : World) (tokens : List String) :
    World × String × List String :=
  match tokens with
  | [] => (w, "", [])
  | cmd :: args =>
    match runHandler env w cmd args with
    | some (Except.ok res) => (res.1, res.2, [joinTokens (cmd :: args)])
    | some (Except.error e) =>
      (w, e.msg ++ "\n", [joinTokens (cmd :: args), "ERROR: " ++ e.msg])
    | none =>
      (w, "Unknown command" ++ "\n",
        [joinTokens (cmd :: args), "ERROR: " ++ "Unknown command"])

/-- Sample stat metadata of a regular file. -/
def fileMeta : Meta := ⟨"-rw-r--r--", 1000, 1000, 5, "Oct 01 12:00"⟩

/-- Sample stat metadata of a directory. -/
def dirMeta : Meta := ⟨"drwxr-xr-x", 1000, 1000, 4096, "Oct 01 12:00"⟩

/-- A concrete filesystem used to evaluate the handlers: a root with a
working directory `/base` (holding subdirectories `sub` and a directory
literally named `~`, plus a file), a home directory `/home/u`, and a
top-level file `/f`. -/
def fs1 : FS := ⟨[
  ([], Entry.dir dirMeta),
  (["base"], Entry.dir dirMeta),
  (["base", "sub"], Entry.dir dirMeta),
  (["base", "~"], Entry.dir dirMeta),
  (["base", "note"], Entry.file "x" fileMeta),
  (["home"], Entry.dir dirMeta),
  (["home", "u"], Entry.dir dirMeta),
  (["f"], Entry.file "aboba" fileMeta)]⟩

/-- A concrete environment whose confirmation response is `y`. -/
def env1 : Env := ⟨["home", "u"], 1000, 1000, "Oct 02 10:00", "y"⟩

/-- The same environment with confirmation response `n`. -/
def envN : Env := ⟨["home", "u"], 1000, 1000, "Oct 02 10:00", "n"⟩

/-- A concrete session: `fs1` with current working directory `/base`. -/
def w1 : World := ⟨fs1, ["base"]⟩

/-- A path component is not one of the special `.` / `..` tokens that
`resolve()` rewrites. -/
def plainComp (c : String) : Bool :=
  !(c == ".") && !(c == "..")

/-- Every component of the path is left alone by `resolve()` — the
invariant canonical paths (such as the session's `pwd`) satisfy. -/
def plainPath (p : List String) : Bool :=
  p.all plainComp

/-- A filesystem where the file `/x` shares its base name with the
directory `/d/x` inside the directory `/d`, so `shutil.copy`'s landing
path for `cp x d` is an existing directory. -/
def fsC9 : FS := ⟨[
  ([], Entry.dir dirMeta),
  (["d"], Entry.dir dirMeta),
  (["d", "x"], Entry.dir dirMeta),
  (["x"], Entry.file "c" fileMeta)]⟩

/-- First-of-two options: the accumulator update order of the `ls`
argument loop (a later path argument overrides an earlier one). -/
def orO (o fallback : Option String) : Option String :=
  match o with
  | some x => some x
  | none => fallback

theorem lexLe_total (x : List Nat) : ∀ y, lexLe x y = true ∨ lexLe y x = true := by
  induction x with
  | nil => intro y; exact Or.inl rfl
  | cons a as ih =>
    intro y
    cases y with
    | nil => exact Or.inr rfl
    | cons b bs =>
      rcases Nat.lt_trichotomy a b with h | h | h
      · exact Or.inl (by simp [lexLe, h])
      · subst h
        simp only [lexLe, Nat.lt_irrefl, if_false]
        exact ih bs
      · exact Or.inr (by simp [lexLe, h])

theorem lexLe_trans (x : List Nat) : ∀ y z, lexLe x y = true → lexLe y z = true →
    lexLe x z = true := by
  induction x with
  | nil => intro y z _ _; rfl
  | cons a as ih =>
    intro y z h1 h2
    cases y with
    | nil => simp [lexLe] at h1
    | cons b bs =>
      cases z with
      | nil => simp [lexLe] at h2
      | cons c cs =>
        simp only [lexLe] at h1 h2 ⊢
        by_cases hab : a < b
        · rw [if_pos hab] at h1
          by_cases hbc : b < c
          · rw [if_pos (show a < c by omega)]
          · rw [if_neg hbc] at h2
            by_cases hcb : c < b
            · rw [if_pos hcb] at h2; exact absurd h2 (by simp)
            · rw [if_pos (show a < c by omega)]
        · rw [if_neg hab] at h1
          by_cases hba : b < a
          · rw [if_pos hba] at h1; exact absurd h1 (by simp)
          · rw [if_neg hba] at h1
            have hq : a = b := by omega
            subst hq
            by_cases hac : a < c
            · rw [if_pos hac]
            · rw [if_neg hac] at h2 ⊢
              by_cases hca : c < a
              · rw [if_pos hca] at h2; exact absurd h2 (by simp)
              · rw [if_neg hca] at h2 ⊢
                exact ih bs cs h1 h2

theorem nameLe_total (a b : String) : nameLe a b = true ∨ nameLe b a = true :=
  lexLe_total (a.data.map Char.toNat) (b.data.map Char.toNat)

theorem nameLe_trans (a b c : String) (h1 : nameLe a b = true)
    (h2 : nameLe b c = true) : nameLe a c = true :=
  lexLe_trans (a.data.map Char.toNat) (b.data.map Char.toNat)
    (c.data.map Char.toNat) h1 h2

theorem insertEntry_perm (x : String × Entry) (l : List (String × Entry)) :
    List.Perm (insertEntry x l) (x :: l) := by
  induction l with
  | nil => exact List.Perm.refl _
  | cons y ys ih =>
    simp only [insertEntry]
    by_cases h : nameLe x.1 y.1 = true
    · rw [if_pos h]
    · rw [if_neg h]
      exact List.Perm.trans (List.Perm.cons y ih) (List.Perm.swap x y ys)

theorem sortEntries_perm (l : List (String × Entry)) :
    List.Perm (sortEntries l) l := by
  induction l with
  | nil => exact List.Perm.refl _
  | cons x xs ih =>
    exact List.Perm.trans (insertEntry_perm x (sortEntries xs)) (List.Perm.cons x ih)

theorem insertEntry_pairwise (x : String × Entry) (l : List (String × Entry))
    (h : List.Pairwise (fun u v => nameLe u.1 v.1 = true) l) :
    List.Pairwise (fun u v => nameLe u.1 v.1 = true) (insertEntry x l) := by
  induction l with
  | nil => simp [insertEntry]
  | cons y ys ih =>
    rcases List.pairwise_cons.mp h with ⟨hy, hys⟩
    simp only [insertEntry]
    by_cases hxy : nameLe x.1 y.1 = true
    · rw [if_pos hxy]
      refine List.pairwise_cons.mpr ⟨?_, h⟩
      intro z hz
      rcases List.mem_cons.mp hz with hzy | hzys
      · subst hzy; exact hxy
      · exact nameLe_trans _ _ _ hxy (hy z hzys)
    · rw [if_neg hxy]
      refine List.pairwise_cons.mpr ⟨?_, ih hys⟩
      intro z hz
      have hz2 : z ∈ x :: ys := (insertEntry_perm x ys).mem_iff.mp hz
      rcases List.mem_cons.mp hz2 with hzx | hzys
      · subst hzx
        rcases nameLe_total z.1 y.1 with hzy | hyz
        · exact absurd hzy hxy
        · exact hyz
      · exact hy z hzys

theorem sortEntries_pairwise (l : List (String × Entry)) :
    List.Pairwise (fun u v => nameLe u.1 v.1 = true) (sortEntries l) := by
  induction l with
  | nil => exact List.Pairwise.nil
  | cons x xs ih => exact insertEntry_pairwise x (sortEntries xs) ih

theorem resolveAux_plain (l : List String) : ∀ acc, plainPath l = true →
    resolveAux acc l = acc ++ l := by
  induction l with
  | nil => intro acc _; simp [resolveAux]
  | cons c cs ih =>
    intro acc h
    simp only [plainPath, List.all_cons, Bool.and_eq_true] at h
    have hc1 : ¬ c = "." := by
      intro hc; subst hc; simp [plainComp] at h
    have hc2 : ¬ c = ".." := by
      intro hc; subst hc; simp [plainComp] at h
    simp only [resolveAux, if_neg hc1, if_neg hc2]
    rw [ih (acc ++ [c]) h.2]
    simp

theorem resolvePath_plain (p : List String) (h : plainPath p = true) :
    resolvePath p = p := by
  unfold resolvePath
  rw [resolveAux_plain p [] h]
  rfl

theorem isDir_existsPath (fs : FS) (p : List String) (h : fs.isDir p = true) :
    fs.existsPath p = true := by
  unfold FS.isDir at h
  unfold FS.existsPath
  cases hl : fs.lookup p with
  | none => rw [hl] at h; exact absurd h (by simp)
  | some e => simp

theorem FS.lookup_set_self (fs : FS) (p : List String) (e : Entry) :
    (fs.set p e).lookup p = some e := by
  unfold FS.set FS.lookup
  rw [List.find?_cons_of_pos _ (by simp)]
  rfl

theorem find?_filter_ne (entries : List (List String × Entry)) (p q : List String)
    (h : q ≠ p) :
    (entries.filter (fun x => !(x.1 == p))).find? (fun e => decide (e.1 = q)) =
      entries.find? (fun e => decide (e.1 = q)) := by
  induction entries with
  | nil => rfl
  | cons a l ih =>
    by_cases hap : a.1 = p
    · have hfa : (!(a.1 == p)) = false := by simp [hap]
      have hnq : (decide (a.1 = q)) = false := by
        simp only [decide_eq_false_iff_not]
        intro hq; exact h (hq ▸ hap)
      rw [List.filter_cons_of_neg (by simp [hfa]), ih,
        List.find?_cons_of_neg _ (by simp [hnq])]
    · have hfa : (!(a.1 == p)) = true := by simp [hap]
      rw [List.filter_cons_of_pos (by simp [hfa])]
      by_cases haq : a.1 = q
      · rw [List.find?_cons_of_pos _ (by simp [haq]),
          List.find?_cons_of_pos _ (by simp [haq])]
      · rw [List.find?_cons_of_neg _ (by simp [haq]),
          List.find?_cons_of_neg _ (by simp [haq]), ih]

theorem FS.lookup_set_ne (fs : FS) (p q : List String) (e : Entry) (h : q ≠ p) :
    (fs.set p e).lookup q = fs.lookup q := by
  unfold FS.set FS.lookup
  rw [List.find?_cons_of_neg _ (by simpa using Ne.symm h),
    find?_filter_ne fs.entries p q h]

theorem rmTree_not_exists (fs : FS) (p q : List String) (h : under p q = true) :
    (rmTree fs p).existsPath q = false := by
  unfold rmTree FS.existsPath FS.lookup
  rw [List.find?_eq_none.mpr]
  · rfl
  · intro x hx
    rcases List.mem_filter.mp hx with ⟨_, hu⟩
    simp only [Bool.not_eq_true', Bool.not_eq_true] at hu
    simp only [decide_eq_true_eq]
    intro hq
    rw [hq] at hu
    simp [h] at hu

theorem getLastQ_cons {α : Type} (a : α) (l : List α) :
    (a :: l).getLast? = some (l.getLast?.getD a) := by
  induction l generalizing a with
  | nil => rfl
  | cons b t ih =>
    rw [List.getLast?_cons_cons, ih b]
    simp

theorem foldl_lsStep (args : List String) : ∀ (d : Bool) (p : Option String),
    args.foldl lsStep (d, p) =
      (d || args.contains "-l",
       orO ((args.filter (fun a => !(a == "-l"))).getLast?) p) := by
  induction args with
  | nil => intro d p; simp [orO]
  | cons a rest ih =>
    intro d p
    by_cases ha : a = "-l"
    · subst ha
      rw [List.foldl_cons, show lsStep (d, p) "-l" = (true, p) from rfl, ih]
      simp
    · rw [List.foldl_cons, show lsStep (d, p) a = (d, some a) from by
        simp [lsStep, ha], ih]
      rw [List.filter_cons_of_pos (by simp [ha]), getLastQ_cons]
      simp only [List.contains_cons]
      rw [show ("-l" == a) = false from by simp [Ne.symm ha]]
      simp only [Bool.false_or]
      cases hg : (List.filter (fun x => !(x == "-l")) rest).getLast? with
      | none => simp [orO, hg]
      | some x => simp [orO, hg]

theorem lsParse_eq (args : List String) :
    lsParse args =
      (args.contains "-l", (args.filter (fun a => !(a == "-l"))).getLast?) := by
  unfold lsParse
  rw [foldl_lsStep]
  simp only [Bool.false_or]
  cases hg : (args.filter (fun a => !(a == "-l"))).getLast? with
  | none => simp [orO, hg]
  | some x => simp [orO, hg]

theorem runHandler_eq_none (env : Env) (w : World) (cmd : String)
    (args : List String) (h : ¬ cmd ∈ commandNames) :
    runHandler env w cmd args = none := by
  simp only [commandNames, List.mem_cons, List.not_mem_nil, or_false, not_or] at h
  obtain ⟨h1, h2, h3, h4, h5, h6⟩ := h
  simp [runHandler, h1, h2, h3, h4, h5, h6]

theorem runHandler_pwd_frame (env : Env) (w : World) (cmd : String)
    (args : List String) (hcd : cmd ≠ "cd") :
    ∀ res, runHandler env w cmd args = some (Except.ok res) → res.1.pwd = w.pwd := by
  intro res hok
  by_cases h1 : cmd = "ls"
  · subst h1
    cases hx : Shell.ls w.fs w.pwd args with
    | error e => simp [runHandler, hx, Except.map] at hok
    | ok lines =>
      have hv : runHandler env w "ls" args = some (Except.ok (w, linesOut lines)) := by
        simp [runHandler, hx, Except.map]
      rw [hv] at hok
      injection hok with hok2
      injection hok2 with hok3
      rw [← hok3]
  · by_cases h3 : cmd = "cat"
    · subst h3
      cases hx : Shell.cat w.fs w.pwd args with
      | error e => simp [runHandler, hx, Except.map] at hok
      | ok c =>
        have hv : runHandler env w "cat" args = some (Except.ok (w, c)) := by
          simp [runHandler, hx, Except.map]
        rw [hv] at hok
        injection hok with hok2
        injection hok2 with hok3
        rw [← hok3]
    · by_cases h4 : cmd = "cp"
      · subst h4
        cases hx : Shell.cp env w.fs w.pwd args with
        | error e => simp [runHandler, hx, Except.map] at hok
        | ok fs2 =>
          have hv : runHandler env w "cp" args =
              some (Except.ok ({ w with fs := fs2 }, "")) := by
            simp [runHandler, hx, Except.map]
          rw [hv] at hok
          injection hok with hok2
          injection hok2 with hok3
          rw [← hok3]
      · by_cases h5 : cmd = "mv"
        · subst h5
          cases hx : Shell.mv w.fs w.pwd args with
          | error e => simp [runHandler, hx, Except.map] at hok
          | ok fs2 =>
            have hv : runHandler env w "mv" args =
                some (Except.ok ({ w with fs := fs2 }, "")) := by
              simp [runHandler, hx, Except.map]
            rw [hv] at hok
            injection hok with hok2
            injection hok2 with hok3
            rw [← hok3]
        · by_cases h6 : cmd = "rm"
          · subst h6
            cases hx : Shell.rm env w.fs w.pwd args with
            | error e => simp [runHandler, hx, Except.map] at hok
            | ok pr =>
              have hv : runHandler env w "rm" args =
                  some (Except.ok ({ w with fs := pr.1 }, pr.2)) := by
                simp [runHandler, hx, Except.map]
              rw [hv] at hok
              injection hok with hok2
              injection hok2 with hok3
              rw [← hok3]
          · rw [runHandler_eq_none env w cmd args (by
              simp [commandNames, h1, hcd, h3, h4, h5, h6])] at hok
            exact Option.noConfusion hok

/-- C1: when the first token is a registered command and the invoked
handler fails with any error, `execute_command` prints the error's
message (followed by `print`'s newline) to standard output, logs the
command line and then a second entry `"ERROR: <message>"`, leaves the
session state untouched, and returns normally — the error does not
propagate to the caller (`execute_command` is a total function into
plain results). -/
theorem exec_handler_error_swallowed (env : Env) (w : World) (cmd : String)
    (args : List String) (e : ShellError)
    (_hreg : cmd ∈ commandNames)
    (hfail : runHandler env w cmd args = some (Except.error e)) :
    execute_command env w (cmd :: args) =
      (w, e.msg ++ "\n", [joinTokens (cmd :: args), "ERROR: " ++ e.msg]) := by
  simp [execute_command, hfail]

/-- Witness for C1: executing `cd` with no argument fails with
`ValueError("cd takes exactly one argument")`, whose message is printed
and logged after the command line. -/
theorem exec_handler_error_swallowed_witness :
    execute_command env1 w1 ["cd"] =
      (w1, "cd takes exactly one argument" ++ "\n",
        [joinTokens ["cd"], "ERROR: " ++ "cd takes exactly one argument"]) :=
  exec_handler_error_swallowed env1 w1 "cd" []
    ⟨ErrKind.invalidArgument, "cd takes exactly one argument"⟩
    (by decide) (by decide)

/-- C2: when the first token matches no registered command,
`execute_command` prints exactly `"Unknown command"` (plus `print`'s
newline), logs the command line and then `"ERROR: Unknown command"`,
leaves the session untouched, and returns normally (no exception). -/
theorem exec_unknown_command (env : Env) (w : World) (cmd : String)
    (args : List String) (h : ¬ cmd ∈ commandNames) :
    execute_command env w (cmd :: args) =
      (w, "Unknown command" ++ "\n",
        [joinTokens (cmd :: args), "ERROR: " ++ "Unknown command"]) := by
  simp [execute_command, runHandler_eq_none env w cmd args h]

/-- Witness for C2 at the unregistered command name `aboba`. -/
theorem exec_unknown_command_witness :
    execute_command env1 w1 ["aboba"] =
      (w1, "Unknown command" ++ "\n",
        [joinTokens ["aboba"], "ERROR: " ++ "Unknown command"]) :=
  exec_unknown_command env1 w1 "aboba" [] (by decide)

/-- C3: the log contract of `execute_command` — an empty token sequence
logs nothing; a non-empty sequence whose handler succeeds logs exactly
the space-joined tokens; a failing handler or an unknown command logs
that line plus exactly one `"ERROR: <message>"` entry. -/
theorem exec_log_contract (env : Env) (w : World) (tokens : List String) :
    (tokens = [] → (execute_command env w tokens).2.2 = []) ∧
    (∀ cmd args, tokens = cmd :: args →
      (∀ res, runHandler env w cmd args = some (Except.ok res) →
        (execute_command env w tokens).2.2 = [joinTokens tokens]) ∧
      (∀ e, runHandler env w cmd args = some (Except.error e) →
        (execute_command env w tokens).2.2 =
          [joinTokens tokens, "ERROR: " ++ e.msg]) ∧
      (runHandler env w cmd args = none →
        (execute_command env w tokens).2.2 =
          [joinTokens tokens, "ERROR: " ++ "Unknown command"])) := by
  constructor
  · intro h; subst h; rfl
  · intro cmd args h
    subst h
    refine ⟨?_, ?_, ?_⟩
    · intro res hres; simp [execute_command, hres]
    · intro e he; simp [execute_command, he]
    · intro hn; simp [execute_command, hn]

/-- Witness for C3: concrete empty, successful (`cd ..`), failing
(`cd` without argument) and unknown (`aboba`) invocations produce
zero, one, two and two log entries respectively. -/
theorem exec_log_contract_witness :
    (execute_command env1 w1 []).2.2 = [] ∧
    (execute_command env1 w1 ["cd", ".."]).2.2 = [joinTokens ["cd", ".."]] ∧
    (execute_command env1 w1 ["cd"]).2.2 =
      [joinTokens ["cd"], "ERROR: " ++ "cd takes exactly one argument"] ∧
    (execute_command env1 w1 ["aboba"]).2.2 =
      [joinTokens ["aboba"], "ERROR: " ++ "Unknown command"] := by
  refine ⟨(exec_log_contract env1 w1 []).1 rfl, ?_, ?_, ?_⟩
  · exact ((exec_log_contract env1 w1 ["cd", ".."]).2 "cd" [".."] rfl).1
      ({ w1 with pwd := [] }, "") (by decide)
  · exact (((exec_log_contract env1 w1 ["cd"]).2 "cd" [] rfl).2).1
      ⟨ErrKind.invalidArgument, "cd takes exactly one argument"⟩ (by decide)
  · exact (((exec_log_contract env1 w1 ["aboba"]).2 "aboba" [] rfl).2).2 (by decide)

/-- C6: the working-directory field is mutated only by a successful
`cd` — whenever the first token is not `cd`, or it is `cd` but the
handler does not succeed (and in particular on every `ls`, `cat`,
`cp`, `mv`, `rm` invocation and every failing `cd`), the `pwd` field
after `execute_command` equals its value before. -/
theorem exec_pwd_mutated_only_by_cd (env : Env) (w : World) (tokens : List String)
    (h : ∀ p, tokens.head? = some "cd" → Shell.cd env w.fs w.pwd tokens.tail ≠ Except.ok p) :
    (execute_command env w tokens).1.pwd = w.pwd := by
  cases tokens with
  | nil => rfl
  | cons cmd args =>
    by_cases hcd : cmd = "cd"
    · subst hcd
      cases hx : Shell.cd env w.fs w.pwd args with
      | error e =>
        have hv : runHandler env w "cd" args = some (Except.error e) := by
          simp [runHandler, hx, Except.map]
        simp [execute_command, hv]
      | ok p => exact absurd hx (h p rfl)
    · cases hr : runHandler env w cmd args with
      | none => simp [execute_command, hr]
      | some r =>
        cases r with
        | error e => simp [execute_command, hr]
        | ok res =>
          have := runHandler_pwd_frame env w cmd args hcd res hr
          simp [execute_command, hr, this]

/-- Witness for C6: an `mv` invocation (which fails for lack of
arguments) and a failing `cd` both leave `pwd` at its prior value. -/
theorem exec_pwd_mutated_only_by_cd_witness :
    (execute_command env1 w1 ["mv"]).1.pwd = w1.pwd ∧
    (execute_command env1 w1 ["cd", "nosuch"]).1.pwd = w1.pwd := by
  constructor
  · exact exec_pwd_mutated_only_by_cd env1 w1 ["mv"]
      (fun p hc => absurd hc (by decide))
  · refine exec_pwd_mutated_only_by_cd env1 w1 ["cd", "nosuch"] (fun p _ hok => ?_)
    have hx : Shell.cd env1 w1.fs w1.pwd (["cd", "nosuch"].tail) =
        Except.error ⟨ErrKind.notFound, "No such file or directory"⟩ := by decide
    rw [hx] at hok
    exact Except.noConfusion hok

/-- C4: `rm` checks its permission guard before touching the
filesystem — whenever the (single) positional argument canonicalizes
to the filesystem root or to exactly `pwd.parent.resolve()`, `rm`
fails with `PermissionError` for every filesystem state; in
particular `rm("/")` always fails with
`PermissionError("cannot remove root directory")`. -/
theorem rm_permission_guard (env : Env) (fs : FS) (pwd : List String)
    (a : String) (args : List String)
    (hargs : (args = [a] ∧ a ≠ "-r") ∨ args = ["-r", a])
    (hpath : resolvePath (joinPath pwd a) = [] ∨
      resolvePath (joinPath pwd a) = resolvePath pwd.dropLast) :
    (∃ msg, Shell.rm env fs pwd args =
      Except.error ⟨ErrKind.permissionDenied, msg⟩) ∧
    Shell.rm env fs pwd ["/"] =
      Except.error ⟨ErrKind.permissionDenied, "cannot remove root directory"⟩ := by
  constructor
  · have hstrip : ∃ r, stripFlag "-r" args = (r, [a]) := by
      rcases hargs with ⟨h1, h2⟩ | h1
      · subst h1; exact ⟨false, by simp [stripFlag, h2]⟩
      · subst h1; exact ⟨true, by simp [stripFlag]⟩
    obtain ⟨r, hstrip⟩ := hstrip
    simp only [Shell.rm, hstrip]
    rcases hpath with hp | hp
    · rw [hp]
      exact ⟨"cannot remove root directory", rfl⟩
    · by_cases hroot : pathToString (resolvePath (joinPath pwd a)) = "/"
      · rw [if_pos hroot]
        exact ⟨"cannot remove root directory", rfl⟩
      · rw [if_neg hroot, if_pos hp]
        exact ⟨"cannot remove parent directory", rfl⟩
  · rfl

/-- Witness for C4: with working directory `/base`, both `rm /` and
`rm ..` are refused with `PermissionError` although `/` and `/base`'s
parent exist in `fs1`, and `rm /` is refused even on the empty
filesystem. -/
theorem rm_permission_guard_witness :
    Shell.rm env1 fs1 ["base"] ["/"] =
      Except.error ⟨ErrKind.permissionDenied, "cannot remove root directory"⟩ ∧
    (∃ msg, Shell.rm env1 fs1 ["base"] [".."] =
      Except.error ⟨ErrKind.permissionDenied, msg⟩) ∧
    (∃ msg, Shell.rm env1 (FS.mk []) ["base"] ["/"] =
      Except.error ⟨ErrKind.permissionDenied, msg⟩) := by
  refine ⟨(rm_permission_guard env1 fs1 ["base"] "/" ["/"]
      (Or.inl ⟨rfl, by decide⟩) (Or.inl (by decide))).2, ?_, ?_⟩
  · exact (rm_permission_guard env1 fs1 ["base"] ".." [".."]
      (Or.inl ⟨rfl, by decide⟩) (Or.inr (by decide))).1
  · exact (rm_permission_guard env1 (FS.mk []) ["base"] "/" ["/"]
      (Or.inl ⟨rfl, by decide⟩) (Or.inl (by decide))).1

/-- C8: `rm -r` on an existing directory that passes the permission
guard is decided by the confirmation response — a response lowering to
`"y"` deletes the whole subtree (afterwards no path under the target
exists), any other response returns normally with the filesystem
completely untouched and no error. -/
theorem rm_recursive_confirmation (env : Env) (fs : FS) (pwd : List String)
    (a : String)
    (hroot : pathToString (resolvePath (joinPath pwd a)) ≠ "/")
    (hparent : resolvePath (joinPath pwd a) ≠ resolvePath pwd.dropLast)
    (hdir : fs.isDir (resolvePath (joinPath pwd a)) = true) :
    (lowerStr env.confirm = "y" →
      Shell.rm env fs pwd ["-r", a] =
        Except.ok (rmTree fs (resolvePath (joinPath pwd a)),
          rmPrompt (resolvePath (joinPath pwd a))) ∧
      ∀ q, under (resolvePath (joinPath pwd a)) q = true →
        (rmTree fs (resolvePath (joinPath pwd a))).existsPath q = false) ∧
    (lowerStr env.confirm ≠ "y" →
      Shell.rm env fs pwd ["-r", a] =
        Except.ok (fs, rmPrompt (resolvePath (joinPath pwd a)))) := by
  have hstrip : stripFlag "-r" ["-r", a] = (true, [a]) := by simp [stripFlag]
  have hex : fs.existsPath (resolvePath (joinPath pwd a)) = true :=
    isDir_existsPath fs _ hdir
  constructor
  · intro hy
    constructor
    · simp only [Shell.rm, hstrip]
      rw [if_neg hroot, if_neg hparent, if_neg (by simp [hex]),
        if_neg (by simp [hdir]), if_pos (by simp [hdir]), if_pos hy]
    · intro q hq
      exact rmTree_not_exists fs _ q hq
  · intro hn
    simp only [Shell.rm, hstrip]
    rw [if_neg hroot, if_neg hparent, if_neg (by simp [hex]),
      if_neg (by simp [hdir]), if_pos (by simp [hdir]), if_neg hn]

/-- Witness for C8: removing `/base/sub` from `/base` with response
`y` deletes the subtree, with response `n` returns the filesystem
unchanged. -/
theorem rm_recursive_confirmation_witness :
    Shell.rm env1 fs1 ["base"] ["-r", "sub"] =
      Except.ok (rmTree fs1 (resolvePath (joinPath ["base"] "sub")),
        rmPrompt (resolvePath (joinPath ["base"] "sub"))) ∧
    (rmTree fs1 (resolvePath (joinPath ["base"] "sub"))).existsPath
      ["base", "sub"] = false ∧
    Shell.rm envN fs1 ["base"] ["-r", "sub"] =
      Except.ok (fs1, rmPrompt (resolvePath (joinPath ["base"] "sub"))) := by
  refine ⟨?_, ?_, ?_⟩
  · exact ((rm_recursive_confirmation env1 fs1 ["base"] "sub"
      (by decide) (by decide) (by decide)).1 (by decide)).1
  · exact ((rm_recursive_confirmation env1 fs1 ["base"] "sub"
      (by decide) (by decide) (by decide)).1 (by decide)).2 ["base", "sub"] (by decide)
  · exact (rm_recursive_confirmation envN fs1 ["base"] "sub"
      (by decide) (by decide) (by decide)).2 (by decide)

/-- Counterexample to C5 as stated: in `fs1` the working directory
`/base` has a real (non-symlink) subdirectory literally named `~`, yet
`cd("~")` does not enter it — the handler's special case sends the
session to the home directory `/home/u` — so the follow-up `cd("..")`
lands in `/home`, not back in `/base`. -/
theorem cd_roundtrip_cex :
    fs1.isDir (["base"] ++ ["~"]) = true ∧
    Shell.cd env1 fs1 ["base"] ["~"] = Except.ok ["home", "u"] ∧
    Shell.cd env1 fs1 ["home", "u"] [".."] = Except.ok ["home"] ∧
    (["home"] : List String) ≠ ["base"] := by decide

/-- C5 (amended): for every canonical working directory `P` that is a
directory of `fs`, and every plain single-component name `d` of an
existing subdirectory of `P` — where `d` is none of the tokens `~`,
`..`, `.` that `cd`/`resolve()` treat specially — `cd(d)` moves the
session to `P ++ [d]` and the follow-up `cd("..")` restores exactly
`P`. -/
theorem cd_roundtrip_amended (env : Env) (fs : FS) (P : List String) (d : String)
    (hP : plainPath P = true) (hPdir : fs.isDir P = true)
    (hsplit : splitPath d = [d]) (habs : isAbs d = false)
    (hdot : d ≠ ".") (hdots : d ≠ "..") (htilde : d ≠ "~")
    (hsub : fs.isDir (P ++ [d]) = true) :
    Shell.cd env fs P [d] = Except.ok (P ++ [d]) ∧
    Shell.cd env fs (P ++ [d]) [".."] = Except.ok P := by
  have hplaind : plainPath (P ++ [d]) = true := by
    simp only [plainPath, List.all_append, Bool.and_eq_true]
    refine ⟨hP, ?_⟩
    simp [plainComp, hdot, hdots]
  have hres : resolvePath (P ++ [d]) = P ++ [d] := resolvePath_plain _ hplaind
  have hresP : resolvePath P = P := resolvePath_plain _ hP
  constructor
  · simp only [Shell.cd, if_neg htilde, if_neg hdots]
    rw [show joinPath P d = P ++ [d] by simp [joinPath, habs, hsplit], hres,
      if_neg (by simp [isDir_existsPath fs _ hsub]), if_neg (by simp [hsub])]
  · simp only [Shell.cd]
    rw [if_neg (by decide : ¬ (".." : String) = "~"), if_pos trivial,
      show (P ++ [d]).dropLast = P from List.dropLast_concat, hresP,
      if_neg (by simp [isDir_existsPath fs _ hPdir]), if_neg (by simp [hPdir])]

/-- Witness for the amended C5: from `/base`, `cd sub` followed by
`cd ..` returns exactly to `/base`. -/
theorem cd_roundtrip_amended_witness :
    Shell.cd env1 fs1 ["base"] ["sub"] = Except.ok (["base"] ++ ["sub"]) ∧
    Shell.cd env1 fs1 (["base"] ++ ["sub"]) [".."] = Except.ok ["base"] :=
  cd_roundtrip_amended env1 fs1 ["base"] "sub" (by decide) (by decide)
    (by decide) (by decide) (by decide) (by decide) (by decide) (by decide)

/-- C7: on an existing directory target and without the `-l` flag,
`ls` succeeds and prints exactly the base names of the target's
immediate children, one line per child, sorted in codepoint
(lexicographic) order. -/
theorem ls_sorted_children (fs : FS) (pwd : List String) (args : List String)
    (hnol : args.contains "-l" = false)
    (hdir : fs.isDir (lsTarget pwd (lsParse args).2) = true) :
    ∃ out, Shell.ls fs pwd args = Except.ok out ∧
      List.Perm out (fs.childNames (lsTarget pwd (lsParse args).2)) ∧
      List.Pairwise (fun x y => nameLe x y = true) out := by
  have hdet : (lsParse args).1 = false := by
    rw [lsParse_eq]
    exact hnol
  refine ⟨(sortEntries (fs.childEntries (lsTarget pwd (lsParse args).2))).map
    (fun it => it.1), ?_, ?_, ?_⟩
  · simp only [Shell.ls]
    rw [if_neg (by simp [isDir_existsPath fs _ hdir]), if_neg (by simp [hdir]),
      hdet]
    simp
  · exact List.Perm.map _ (sortEntries_perm _)
  · exact List.Pairwise.map _ (fun a b h => h) (sortEntries_pairwise _)

/-- Witness for C7: `ls` of `/base` (no arguments, from `/base`)
lists `note`, `sub`, `~` — a sorted permutation of the children. -/
theorem ls_sorted_children_witness :
    ∃ out, Shell.ls fs1 ["base"] [] = Except.ok out ∧
      List.Perm out (fs1.childNames (lsTarget ["base"] (lsParse []).2)) ∧
      List.Pairwise (fun x y => nameLe x y = true) out :=
  ls_sorted_children fs1 ["base"] [] (by decide) (by decide)

/-- Counterexample to C9 as stated: at three inputs whose source
canonicalizes to an existing regular file, `cp` does not copy to the
destination but raises — `SameFileError` when the destination is the
source itself (`cp f f`), `FileNotFoundError` when the destination's
parent directory is missing (`cp f nodir/g`: the program fails at
`open("/nodir/g", "wb")`), and `IsADirectoryError` when the
destination is a directory whose entry for the source's base name is
itself a directory (`cp x d` in `fsC9`, where the copy would land at
the existing directory `/d/x`). -/
theorem cp_file_copies_cex :
    (fs1.isFile (resolvePath (joinPath [] "f")) = true ∧
      Shell.cp env1 fs1 [] ["f", "f"] =
        Except.error ⟨ErrKind.sameFile, "/f and /f are the same file"⟩) ∧
    (fs1.existsPath (resolvePath (joinPath [] "nodir")) = false ∧
      Shell.cp env1 fs1 [] ["f", "nodir/g"] =
        Except.error ⟨ErrKind.notFound, "No such file or directory"⟩) ∧
    (fsC9.isFile (resolvePath (joinPath [] "x")) = true ∧
      fsC9.isDir ["d", "x"] = true ∧
      Shell.cp env1 fsC9 [] ["x", "d"] =
        Except.error ⟨ErrKind.isADirectory, "Is a directory"⟩) := by
  decide

/-- C9 (amended): for every `cp` invocation whose source canonicalizes
to an existing regular file, write `t` for the landing path of
`shutil.copy` — the destination itself, or `destination/basename(source)`
when the destination is an existing directory.  Provided `t` is not
the source, is not an existing directory, and its parent exists as a
directory, `cp` succeeds and binds `t` to a file with the source's
contents and its basic metadata (the permission mode `shutil.copy`
preserves), overwriting any file previously at `t`, and leaves every
other path untouched. -/
theorem cp_file_copies (env : Env) (fs : FS) (pwd : List String) (s d : String)
    (args : List String) (c : String) (m : Meta) (t : List String)
    (hargs : (args = [s, d] ∧ s ≠ "-r") ∨ args = ["-r", s, d])
    (hsrc : fs.lookup (resolvePath (joinPath pwd s)) = some (Entry.file c m))
    (ht : t = copyTarget fs (resolvePath (joinPath pwd s))
      (resolvePath (joinPath pwd d)))
    (hne : t ≠ resolvePath (joinPath pwd s))
    (hnotdir : fs.isDir t = false)
    (hparent : fs.isDir t.dropLast = true) :
    Shell.cp env fs pwd args =
      Except.ok (fs.set t
        (Entry.file c ⟨m.mode, env.uid, env.gid, m.size, env.now⟩)) ∧
    (fs.set t (Entry.file c ⟨m.mode, env.uid, env.gid, m.size, env.now⟩)).lookup t =
      some (Entry.file c ⟨m.mode, env.uid, env.gid, m.size, env.now⟩) ∧
    (∀ q, q ≠ t →
      (fs.set t (Entry.file c ⟨m.mode, env.uid, env.gid, m.size, env.now⟩)).lookup q =
        fs.lookup q) := by
  subst ht
  have hex : fs.existsPath (resolvePath (joinPath pwd s)) = true := by
    unfold FS.existsPath
    rw [hsrc]
    rfl
  have hnd : fs.isDir (resolvePath (joinPath pwd s)) = false := by
    unfold FS.isDir
    rw [hsrc]
  have hstrip : ∃ r, stripFlag "-r" args = (r, [s, d]) := by
    rcases hargs with ⟨h1, h2⟩ | h1
    · subst h1; exact ⟨false, by simp [stripFlag, h2]⟩
    · subst h1; exact ⟨true, by simp [stripFlag]⟩
  obtain ⟨r, hstrip⟩ := hstrip
  refine ⟨?_, FS.lookup_set_self fs _ _, fun q hq => FS.lookup_set_ne fs _ q _ hq⟩
  simp only [Shell.cp, hstrip]
  rw [if_neg (by simp [hex]), if_neg (by simp [hnd]), if_neg (by simp [hnd])]
  simp only [shutilCopy, hsrc]
  rw [if_neg (by simp [hne]), if_neg (by simp [hnotdir]),
    if_neg (by simp [hparent]), if_neg (by simp [hparent])]

/-- Witness for the amended C9: from the root, `cp f g` copies `/f`
(content `aboba`, mode `-rw-r--r--`) to the fresh path `/g`, and
`cp f base` — whose destination is the existing directory `/base` —
copies it to the landing path `/base/f`. -/
theorem cp_file_copies_witness :
    Shell.cp env1 fs1 [] ["f", "g"] =
      Except.ok (fs1.set
        (copyTarget fs1 (resolvePath (joinPath [] "f"))
          (resolvePath (joinPath [] "g")))
        (Entry.file "aboba"
          ⟨fileMeta.mode, env1.uid, env1.gid, fileMeta.size, env1.now⟩)) ∧
    Shell.cp env1 fs1 [] ["f", "base"] =
      Except.ok (fs1.set
        (copyTarget fs1 (resolvePath (joinPath [] "f"))
          (resolvePath (joinPath [] "base")))
        (Entry.file "aboba"
          ⟨fileMeta.mode, env1.uid, env1.gid, fileMeta.size, env1.now⟩)) := by
  constructor
  · exact (cp_file_copies env1 fs1 [] "f" "g" ["f", "g"] "aboba" fileMeta _
      (Or.inl ⟨rfl, by decide⟩) (by decide) rfl (by decide) (by decide)
      (by decide)).1
  · exact (cp_file_copies env1 fs1 [] "f" "base" ["f", "base"] "aboba" fileMeta _
      (Or.inl ⟨rfl, by decide⟩) (by decide) rfl (by decide) (by decide)
      (by decide)).1

/-- C10: `ls` never fails with `InvalidArgument` whatever the argument
count — its argument loop returns detailed mode exactly when some token
is `-l`, and uses the last non-`-l` token as the path argument
(earlier ones are silently discarded). -/
theorem ls_argument_leniency (args : List String) :
    (∀ fs pwd e, Shell.ls fs pwd args = Except.error e →
      e.kind ≠ ErrKind.invalidArgument) ∧
    lsParse args = (args.contains "-l",
      (args.filter (fun a => !(a == "-l"))).getLast?) := by
  refine ⟨?_, lsParse_eq args⟩
  intro fs pwd e h
  simp only [Shell.ls] at h
  split at h
  · cases h; decide
  · split at h
    · cases h; decide
    · exact absurd h (by simp)

/-- Witness for C10: on `["a", "-l", "b"]` the parse is detailed with
path `b` (the earlier `a` is discarded), and a failing `ls` raises
`FileNotFoundError`, not `ValueError`. -/
theorem ls_argument_leniency_witness :
    lsParse ["a", "-l", "b"] = ((["a", "-l", "b"] : List String).contains "-l",
      ((["a", "-l", "b"] : List String).filter (fun a => !(a == "-l"))).getLast?) ∧
    (⟨ErrKind.notFound, "No such file or directory"⟩ : ShellError).kind ≠
      ErrKind.invalidArgument := by
  refine ⟨(ls_argument_leniency ["a", "-l", "b"]).2, ?_⟩
  exact (ls_argument_leniency ["a", "-l", "b"]).1 fs1 ["base"]
    ⟨ErrKind.notFound, "No such file or directory"⟩ (by decide)
